import Mathlib

/-!
Shallow embedding of the change-notification / incremental-sync engine of the
AWAD email client (backend services `PullStrategy`, `socketService`, the email
router's Kanban helpers, the snooze sweeper, and the Gmail message parser).

Conventions of the embedding:
* Gmail `historyId` values are decimal strings compared via `BigInt` in the
  source; they are modelled as `Nat` (arbitrary-precision integers), with an
  absent / never-seeded cursor modelled as `none`.
* `async`/`await` code is modelled as sequential state-passing functions; a
  provider call that may reject is an `Except Unit` value.
* The Mongo collections (`User`, `EmailModel`) are modelled as lists inside a
  `ServerState`; a Mongoose `doc.save()` becomes a functional update of the
  matching list entry.
* Socket emissions (`socketService.emitToUser`) performed during a sync pass
  are collected into an emission log rather than sent.
* MIME decoding (`decodeMailHeader`), body extraction (`extractBody`) and
  attachment extraction are content transformations irrelevant to the claims;
  the extracted body is carried as a plain field of the message model.
-/

namespace EmailClient

/-- One parsed email in the API shape produced by `parseGmailMessage`
(fields not used by any verified property are omitted). -/
structure Email where
  id : String
  userId : String
  mailboxId : String
  subject : String
  body : String
  isRead : Bool
  isStarred : Bool
  status : String
  snoozeUntil : Option Nat
  deriving Repr, DecidableEq

/-- A persisted `EmailModel` document (the Mongo store), restricted to the
fields the verified properties touch. -/
structure EmailDoc where
  emailId : String
  userId : String
  status : String
  snoozeUntil : Option Nat
  deriving Repr, DecidableEq

/-- A `User` document: id, mail address and the per-user history cursor
(`latestHistoryId`), absent when the watch was never seeded. -/
structure UserRec where
  userId : String
  email : String
  latestHistoryId : Option Nat
  deriving Repr, DecidableEq

/-- A header of a Gmail API message payload. -/
structure MessageHeader where
  name : String
  value : String
  deriving Repr, DecidableEq

/-- A Gmail API message as consumed by `parseGmailMessage`: id, label ids,
headers, and the body text (MIME extraction abstracted, see module header). -/
structure GmailMessage where
  id : String
  labelIds : List String
  headers : List MessageHeader
  extractedBody : String
  deriving Repr, DecidableEq

/-- The `msgAdded.message` entry of a history record; the message id may be
missing (`msgAdded.message && msgAdded.message.id` guard in the source). -/
structure MsgAdded where
  messageId : Option String
  deriving Repr, DecidableEq

/-- One record of the provider's history log; `messagesAdded` may be absent
(`if (record.messagesAdded)` guard in the source). -/
structure HistoryRecord where
  messagesAdded : Option (List MsgAdded)
  deriving Repr, DecidableEq

/-- The Gmail provider as an oracle: `getHistory userId sinceHistoryId` and
`getMessage userId messageId`, each of which may reject (transient error). -/
structure Provider where
  getHistory : String → Nat → Except Unit (List HistoryRecord)
  getMessage : String → String → Except Unit GmailMessage

/-- The parsed Pub/Sub notification envelope `\x7bemailAddress, historyId\x7d`. -/
structure Envelope where
  emailAddress : String
  historyId : Nat
  deriving Repr, DecidableEq

/-- Server-side persistent state touched by the sync engine: the user
collection (cursor store) and the persisted email collection. -/
structure ServerState where
  users : List UserRec
  emails : List EmailDoc
  deriving Repr, DecidableEq

/-- A socket emission performed via `socketService.emitToUser`:
`(userId, event, payload)`. -/
abbrev Emission := String × String × Email

/-- Result of one `handleNotification` pass: the new server state, the socket
emissions performed, and whether an error was caught (and logged) by the
pass's `try/catch`. -/
structure SyncResult where
  state : ServerState
  emitted : List Emission
  failed : Bool
  deriving Repr, DecidableEq

/-- Model of `headers.find(h => h.name?.toLowerCase() === name.toLowerCase())?.value || ""`. -/
def getHeader (headers : List MessageHeader) (name : String) : String :=
  match headers.find? (fun h => h.name.toLower == name.toLower) with
  | some h => h.value
  | none => ""

/-- Model of `parseGmailMessage(message, userId, mailboxId)` from `utils/emailParser`:
builds the internal Email shape; `isRead` is the absence of the `UNREAD`
label, `isStarred` the presence of `STARRED`; the workflow `status` is set to
the mailbox hint and `snoozeUntil` to null. -/
def parseGmailMessage (message : GmailMessage) (userId mailboxId : String) : Email :=
  { id := message.id
    userId := userId
    mailboxId := mailboxId
    subject := getHeader message.headers "Subject"
    body := message.extractedBody
    isRead := !(message.labelIds.contains "UNREAD")
    isStarred := message.labelIds.contains "STARRED"
    status := mailboxId
    snoozeUntil := none }

/-- Model of `User.findOne(\x7bemail\x7d)`: first user whose mail address matches. -/
def findUser (users : List UserRec) (email : String) : Option UserRec :=
  users.find? (fun u => u.email == email)

/-- The message ids the `handleNotification` loop visits: for each record with
`messagesAdded`, each `msgAdded.message.id` that is present. -/
def collectIds (history : List HistoryRecord) : List String :=
  history.flatMap (fun r => (r.messagesAdded.getD []).filterMap (·.messageId))

/-- The inner loop of `handleNotification`: fetch each full message in order;
a rejected `getMessage` aborts the loop (the surrounding `try` catches it),
keeping the emails already parsed and emitted before the failure. -/
def fetchAll (prov : Provider) (userId : String) : List String → List Email × Bool
  | [] => ([], false)
  | msgId :: rest =>
    match prov.getMessage userId msgId with
    | .error _ => ([], true)
    | .ok msg =>
      let e := parseGmailMessage msg userId "INBOX"
      let (es, failed) := fetchAll prov userId rest
      (e :: es, failed)

/-- Model of `user.latestHistoryId = h; await user.save()`: functional update of the
user document in the collection. -/
def setUserCursor (users : List UserRec) (userId : String) (h : Nat) : List UserRec :=
  users.map (fun u => if u.userId == userId then { u with latestHistoryId := some h } else u)

/-- Model of `PullStrategy.handleNotification(data)`: drop if the user is unknown or
has no stored cursor; drop if `newHistoryId <= latestHistoryId` (BigInt
comparison); otherwise fetch the history since the stored cursor, fetch +
parse + emit every added message, and advance the cursor only when the whole
batch succeeded. A caught error leaves the state untouched. -/
def handleNotification (prov : Provider) (s : ServerState) (env : Envelope) : SyncResult :=
  match findUser s.users env.emailAddress with
  | none => ⟨s, [], false⟩
  | some user =>
    match user.latestHistoryId with
    | none => ⟨s, [], false⟩
    | some latest =>
      if env.historyId ≤ latest then ⟨s, [], false⟩
      else
        match prov.getHistory user.userId latest with
        | .error _ => ⟨s, [], true⟩
        | .ok history =>
          let (parsed, failed) := fetchAll prov user.userId (collectIds history)
          let emitted := parsed.map (fun e => (user.userId, "email:new", e))
          if failed then ⟨s, emitted, true⟩
          else ⟨⟨setUserCursor s.users user.userId env.historyId, s.emails⟩, emitted, false⟩

/-- The stored cursor of the user owning a mail address. -/
def cursorOf (s : ServerState) (email : String) : Option Nat :=
  (findUser s.users email).bind (·.latestHistoryId)

/-- The provider's `gmailService.watch` registration response. -/
structure WatchResponse where
  historyId : Option Nat
  deriving Repr, DecidableEq

/-- Model of `PullStrategy.start(userId)`: look the user up by id; call the provider's
watch registration (a rejected call is caught and logged); whenever the
response carries a `historyId`, store it as the user's cursor and save. -/
def start (watchCall : Except Unit WatchResponse) (s : ServerState)
    (userId : String) : ServerState :=
  match s.users.find? (fun u => u.userId == userId) with
  | none => s
  | some _ =>
    match watchCall with
    | .error _ => s
    | .ok resp =>
      match resp.historyId with
      | some h => ⟨setUserCursor s.users userId h, s.emails⟩
      | none => s

/-- A raw Pub/Sub message body as seen by the subscription handler: either its
JSON fails to parse (or lacks the envelope fields) or it parses to an
`Envelope`. -/
inductive Payload where
  | malformed : Payload
  | wellFormed : Envelope → Payload
  deriving Repr, DecidableEq

/-- Outcome of the `subscription.on('message')` handler installed by
`PullStrategy.startListening`: resulting state, whether `message.ack()` was
called, and whether the sync pass caught (and logged) a processing error. -/
structure ListenResult where
  state : ServerState
  acked : Bool
  processingFailed : Bool
  deriving Repr, DecidableEq

/-- The `message` handler of `startListening`: `JSON.parse` the payload
(a parse failure is caught, logged, and the message is neither acked nor
nacked), then `await handleNotification(data)` — which catches its own
processing errors and resolves normally — then `message.ack()`. -/
def onQueueMessage (prov : Provider) (s : ServerState) (p : Payload) : ListenResult :=
  match p with
  | .malformed => ⟨s, false, false⟩
  | .wellFormed env =>
    let r := handleNotification prov s env
    ⟨r.state, true, r.failed⟩

/-- A Kanban board column (`KanbanColumnSchema`), restricted to the fields the
workflow mapping reads: the column's workflow `status`, its optional
`gmailLabel`, and its `order`. -/
structure KanbanColumn where
  id : String
  status : String
  gmailLabel : Option String
  order : Int
  deriving Repr, DecidableEq

/-- The default column set created for a user with no stored Kanban config
(migration seed `defaultKanbanConfig`). -/
def defaultColumns : List KanbanColumn :=
  [ ⟨"col-inbox", "inbox", some "INBOX", 0⟩,
    ⟨"col-todo", "todo", some "STARRED", 1⟩,
    ⟨"col-in-progress", "in-progress", none, 2⟩,
    ⟨"col-done", "done", none, 3⟩,
    ⟨"col-snoozed", "snoozed", none, 4⟩ ]

/-- Stable insertion into a list sorted by ascending `order` (the model of
`columns.sort((a, b) => a.order - b.order)`, which is a stable sort). -/
def insertCol (c : KanbanColumn) : List KanbanColumn → List KanbanColumn
  | [] => [c]
  | d :: ds => if d.order < c.order then d :: insertCol c ds else c :: d :: ds

/-- Stable sort of the columns by ascending `order`. -/
def sortColumns : List KanbanColumn → List KanbanColumn
  | [] => []
  | c :: cs => insertCol c (sortColumns cs)

/-- Whether a column's `gmailLabel` is set and present in the message's label
set (`column.gmailLabel && gmailLabels.includes(column.gmailLabel)`). -/
def colMatches (gmailLabels : List String) (c : KanbanColumn) : Bool :=
  match c.gmailLabel with
  | some l => gmailLabels.contains l
  | none => false

/-- Model of `getStatusFromGmailLabels(userId, gmailLabels, mailboxId)`: take the
user's stored columns (or the default set when no config exists), sort them by
`order`, and return the `status` of the first column whose `gmailLabel` is in
the label set; when no column matches, return `mailboxId` directly. -/
def getStatusFromGmailLabels (config : Option (List KanbanColumn))
    (gmailLabels : List String) (mailboxId : String) : String :=
  let columns := config.getD defaultColumns
  match (sortColumns columns).find? (colMatches gmailLabels) with
  | some c => c.status
  | none => mailboxId

/-- Whether a persisted email matches the sweeper's query
`\x7bstatus: "snoozed", snoozeUntil: \x7b$lte: now\x7d\x7d` (a null/absent
`snoozeUntil` does not match `$lte`). -/
def isExpired (now : Nat) (e : EmailDoc) : Bool :=
  e.status == "snoozed" &&
    (match e.snoozeUntil with
     | some t => t ≤ now
     | none => false)

/-- The find phase of the background sweeper (`setInterval` job): the ids of
the documents matching the query, a snapshot taken before any save runs. -/
def sweepFind (now : Nat) (emails : List EmailDoc) : List String :=
  (emails.filter (isExpired now)).map (·.emailId)

/-- One pending per-document save of the sweeper
(`email.status = "inbox"; email.snoozeUntil = null; await email.save()`):
Mongoose writes the modified paths of the document matching this `_id` —
filtered on the id only, with no condition on the document's current
state. -/
def sweepSaveOne (docId : String) (emails : List EmailDoc) : List EmailDoc :=
  emails.map (fun e =>
    if e.emailId == docId then { e with status := "inbox", snoozeUntil := none }
    else e)

/-- The save phase of one sweeper run: the pending saves of every found id,
in find order. -/
def sweepSave (ids : List String) (emails : List EmailDoc) : List EmailDoc :=
  ids.foldl (fun acc i => sweepSaveOne i acc) emails

/-- One uninterrupted run of the background snooze sweeper: find every
snoozed document whose `snoozeUntil` has passed, then save each one back as
an inbox document. -/
def sweepExpired (now : Nat) (emails : List EmailDoc) : List EmailDoc :=
  sweepSave (sweepFind now emails) emails

/-- Combined per-document effect of one uninterrupted sweeper run (the find
condition fused with the save), used to characterise `sweepExpired`. -/
def expireOne (now : Nat) (e : EmailDoc) : EmailDoc :=
  if isExpired now e then { e with status := "inbox", snoozeUntil := none } else e

/-- Modelled from the spec's words, for comparison with `sweepSaveOne`: a
per-item atomic conditional update (compare-and-set on the snooze condition)
that re-checks `workflowStatus == snoozed and snoozeUntil <= now` at write
time and writes only when it still holds. -/
def casExpireOne (now : Nat) (docId : String) (emails : List EmailDoc) : List EmailDoc :=
  emails.map (fun e =>
    if e.emailId == docId && isExpired now e then
      { e with status := "inbox", snoozeUntil := none }
    else e)

/-- Model of the auto-expire step of `GET /emails/by-status`: a single
conditional `updateMany` scoped to the requesting user, matching only
documents whose `snoozeUntil` is strictly before now (`$lt`). -/
def autoExpireByStatus (now : Nat) (userId : String) (emails : List EmailDoc) : List EmailDoc :=
  emails.map (fun e =>
    if e.userId == userId && e.status == "snoozed" &&
        (match e.snoozeUntil with
         | some t => t < now
         | none => false) then
      { e with status := "inbox", snoozeUntil := none }
    else e)

/-- The write step of `PATCH /emails/:id/status` after validation: set the new
status and, when the new status is not `"snoozed"`, clear `snoozeUntil` in the
same save. -/
def applyStatusUpdate (doc : EmailDoc) (status : String) : EmailDoc :=
  let doc' := { doc with status := status }
  if status != "snoozed" then { doc' with snoozeUntil := none } else doc'

/-- Model of `PATCH /emails/:id/status`: reject a status outside the user's column
statuses with a 400 (`none`); otherwise perform the status write. -/
def patchEmailStatus (columns : List KanbanColumn) (doc : EmailDoc)
    (status : String) : Option EmailDoc :=
  if (columns.map (·.status)).contains status then
    some (applyStatusUpdate doc status)
  else
    none

/-- Model of `SocketService.userSockets`: the per-user connection registry, a map from
`userId` to the socket ids of that user's live connections (insertion-ordered
assoc list, matching the JS `Map`). -/
abbrev Registry := List (String × List String)

/-- Model of `userSockets.get(userId)`. -/
def lookupReg (reg : Registry) (userId : String) : Option (List String) :=
  (reg.find? (fun p => p.1 == userId)).map (·.2)

/-- In-place update of one user's socket list (mutation of the array held in
the `Map`). -/
def updateEntry (reg : Registry) (userId : String)
    (f : List String → List String) : Registry :=
  reg.map (fun p => if p.1 == userId then (p.1, f p.2) else p)

/-- The `connection` handler: create an empty entry for the user if absent,
then push this socket's id onto the user's list. -/
def connectSock (reg : Registry) (userId sid : String) : Registry :=
  updateEntry (if (lookupReg reg userId).isSome then reg else reg ++ [(userId, [])])
    userId (fun l => l ++ [sid])

/-- Model of `sockets.indexOf(sid)` followed by the guarded `splice(index, 1)`: remove
the first occurrence of `sid`, if any. -/
def removeFirst : List String → String → List String
  | [], _ => []
  | x :: xs, sid => if x == sid then xs else x :: removeFirst xs sid

/-- The `disconnect` handler: remove this socket id from the user's list
(splice on the array held in the `Map`; a `Map` has at most one entry per
key, so the pointwise update below touches exactly that array) and delete
the entry when the list becomes empty. -/
def disconnectSock (reg : Registry) (userId sid : String) : Registry :=
  if (removeFirst ((lookupReg reg userId).getD []) sid).isEmpty then
    reg.filter (fun p => !(p.1 == userId))
  else
    updateEntry reg userId (fun l => removeFirst l sid)

/-- Model of `SocketService.emitToUser(userId, event, data)`: send the event to every
socket id registered for that user; with no entry, do nothing. The result is
the list of `(socketId, event, payload)` sends performed. -/
def emitToUser (reg : Registry) (userId event : String) (payload : Email) :
    List (String × String × Email) :=
  match lookupReg reg userId with
  | some sockets => sockets.map (fun sid => (sid, event, payload))
  | none => []

/-- A connection-registry event handled by `SocketService`. -/
inductive ConnEvent where
  | connect : String → String → ConnEvent
  | disconnect : String → String → ConnEvent
  deriving Repr, DecidableEq

/-- Apply one connection event to the registry. -/
def applyEvent (reg : Registry) : ConnEvent → Registry
  | .connect userId sid => connectSock reg userId sid
  | .disconnect userId sid => disconnectSock reg userId sid

/-- Replay a sequence of connection events from a registry. -/
def applyEvents (reg : Registry) (evs : List ConnEvent) : Registry :=
  evs.foldl applyEvent reg

/-- Holds when `sid` occurs in no user's socket list. -/
def socketAbsent (reg : Registry) (sid : String) : Bool :=
  reg.all (fun p => !(p.2.contains sid))

/-- A trace is fresh when every `connect` event carries a socket id not
currently registered anywhere (socket.io assigns a fresh id per connection). -/
def freshTrace : Registry → List ConnEvent → Bool
  | _, [] => true
  | reg, ev :: rest =>
    (match ev with
     | .connect _ sid => socketAbsent reg sid
     | .disconnect _ _ => true) && freshTrace (applyEvent reg ev) rest

/-- Two registry entries belong to different users and share no socket id. -/
abbrev entriesDisjoint (p q : String × List String) : Prop :=
  p.1 ≠ q.1 ∧ ∀ sid ∈ p.2, sid ∉ q.2

/-- Registry well-formedness: distinct users and pairwise-disjoint socket
lists (the invariant socket.io's unique connection ids give the `Map`). -/
abbrev WFReg (reg : Registry) : Prop :=
  reg.Pairwise entriesDisjoint

end EmailClient

namespace EmailClient

/-- Updating a user's cursor changes no mail address, so the user found by a
mail address after the update is the one found before, with the new cursor
when the updated id matches. -/
theorem findUser_setUserCursor (users : List UserRec) (email : String)
    (u : UserRec) (h : Nat) (hfind : findUser users email = some u) :
    findUser (setUserCursor users u.userId h) email
      = some { u with latestHistoryId := some h } := by
  induction users with
  | nil => simp [findUser] at hfind
  | cons v vs ih =>
    by_cases hv : v.email == email
    · have hv' : v = u := by
        simp only [findUser, List.find?_cons, hv, cond_true] at hfind
        exact Option.some.inj hfind
      subst hv'
      simp [findUser, setUserCursor, hv]
    · have htail : findUser vs email = some u := by
        simpa only [findUser, List.find?_cons, hv, cond_false] using hfind
      have := ih htail
      simp only [findUser, setUserCursor, List.map_cons, List.find?_cons] at this ⊢
      by_cases hid : v.userId == u.userId
      · simpa [hid, hv] using this
      · simpa [hid, hv] using this

/-- C3: a notification for a user with a stored cursor whose historyId is at
most the stored `latestHistoryId` is dropped silently: for every provider the
pass performs no fetch, emits nothing, reports no failure, and leaves the
state unchanged. -/
theorem stale_notification_dropped (s : ServerState) (env : Envelope)
    (u : UserRec) (latest : Nat)
    (h1 : findUser s.users env.emailAddress = some u)
    (h2 : u.latestHistoryId = some latest)
    (h3 : env.historyId ≤ latest) :
    ∀ prov : Provider, handleNotification prov s env = ⟨s, [], false⟩ := by
  intro prov
  simp [handleNotification, h1, h2, h3]

/-- Witness for C3: cursor 105, incoming historyId 103 → dropped. -/
theorem stale_notification_dropped_witness :
    handleNotification ⟨fun _ _ => .ok [], fun _ _ => .error ()⟩
      ⟨[⟨"u1", "a@x", some 105⟩], []⟩ ⟨"a@x", 103⟩
      = ⟨⟨[⟨"u1", "a@x", some 105⟩], []⟩, [], false⟩ :=
  stale_notification_dropped ⟨[⟨"u1", "a@x", some 105⟩], []⟩ ⟨"a@x", 103⟩
    ⟨"u1", "a@x", some 105⟩ 105 (by decide) (by decide) (by decide)
    ⟨fun _ _ => .ok [], fun _ _ => .error ()⟩

/-- C8: a notification whose mail address matches no stored user, or a user
with no stored cursor, is dropped for every provider — no fetch, no emission,
no state change — and the listener still acknowledges and continues (the drop
is fatal only for this event). -/
theorem unknown_user_dropped (s : ServerState) (env : Envelope)
    (h : findUser s.users env.emailAddress = none ∨
      ∃ u, findUser s.users env.emailAddress = some u ∧ u.latestHistoryId = none) :
    ∀ prov : Provider,
      handleNotification prov s env = ⟨s, [], false⟩ ∧
      onQueueMessage prov s (.wellFormed env) = ⟨s, true, false⟩ := by
  intro prov
  have hmain : handleNotification prov s env = ⟨s, [], false⟩ := by
    rcases h with h | ⟨u, hu, hc⟩
    · simp [handleNotification, h]
    · simp [handleNotification, hu, hc]
  refine ⟨hmain, ?_⟩
  simp [onQueueMessage, hmain]

/-- Witness for C8: unknown mail address → dropped, still acknowledged. -/
theorem unknown_user_dropped_witness :
    handleNotification ⟨fun _ _ => .ok [], fun _ _ => .error ()⟩
      ⟨[⟨"u1", "a@x", some 105⟩], []⟩ ⟨"nobody@x", 110⟩
      = ⟨⟨[⟨"u1", "a@x", some 105⟩], []⟩, [], false⟩ ∧
    onQueueMessage ⟨fun _ _ => .ok [], fun _ _ => .error ()⟩
      ⟨[⟨"u1", "a@x", some 105⟩], []⟩ (.wellFormed ⟨"nobody@x", 110⟩)
      = ⟨⟨[⟨"u1", "a@x", some 105⟩], []⟩, true, false⟩ :=
  unknown_user_dropped ⟨[⟨"u1", "a@x", some 105⟩], []⟩ ⟨"nobody@x", 110⟩
    (Or.inl (by decide)) ⟨fun _ _ => .ok [], fun _ _ => .error ()⟩

/-- C10: a successful `PATCH /emails/:id/status` write sets the new status
and, whenever the new status is anything other than `"snoozed"`, clears
`snoozeUntil` to null in the same write; a snooze keeps the stored deadline,
and the document's identity is untouched. -/
theorem patch_status_clears_snooze (columns : List KanbanColumn)
    (doc : EmailDoc) (status : String) (doc' : EmailDoc)
    (h : patchEmailStatus columns doc status = some doc') :
    doc'.status = status ∧
    (status ≠ "snoozed" → doc'.snoozeUntil = none) ∧
    (status = "snoozed" → doc'.snoozeUntil = doc.snoozeUntil) ∧
    doc'.emailId = doc.emailId ∧ doc'.userId = doc.userId := by
  unfold patchEmailStatus at h
  by_cases hc : (columns.map (·.status)).contains status
  · rw [if_pos hc] at h
    have hd : doc' = applyStatusUpdate doc status := (Option.some.inj h).symm
    subst hd
    unfold applyStatusUpdate
    by_cases hs : status = "snoozed"
    · simp [hs]
    · have hs' : (status != "snoozed") = true := by
        simpa [bne_iff_ne] using hs
      simp [hs', hs]
  · rw [if_neg hc] at h
    exact absurd h (by simp)

/-- C2: the stored cursor is advanced only by a fully successful pass — a
caught history/message fetch error leaves the whole state (cursor included)
unchanged, and whenever the state did change, the pass reported success and
the cursor now reads the notification's `newHistoryId`. -/
theorem cursor_advance_is_atomic (prov : Provider) (s : ServerState)
    (env : Envelope) :
    ((handleNotification prov s env).failed = true →
      (handleNotification prov s env).state = s) ∧
    ((handleNotification prov s env).state ≠ s →
      (handleNotification prov s env).failed = false ∧
      cursorOf (handleNotification prov s env).state env.emailAddress
        = some env.historyId) := by
  cases hfind : findUser s.users env.emailAddress with
  | none => simp [handleNotification, hfind]
  | some user =>
    cases hcur : user.latestHistoryId with
    | none => simp [handleNotification, hfind, hcur]
    | some latest =>
      by_cases hle : env.historyId ≤ latest
      · simp [handleNotification, hfind, hcur, hle]
      · cases hh : prov.getHistory user.userId latest with
        | error e => simp [handleNotification, hfind, hcur, hle, hh]
        | ok history =>
          cases hf : fetchAll prov user.userId (collectIds history) with
          | mk parsed failed =>
            cases failed with
            | true => simp [handleNotification, hfind, hcur, hle, hh, hf]
            | false =>
              have hres : handleNotification prov s env =
                  ⟨⟨setUserCursor s.users user.userId env.historyId, s.emails⟩,
                    parsed.map (fun e => (user.userId, "email:new", e)), false⟩ := by
                simp [handleNotification, hfind, hcur, hle, hh, hf]
              rw [hres]
              refine ⟨by simp, fun _ => ⟨rfl, ?_⟩⟩
              unfold cursorOf
              rw [findUser_setUserCursor s.users env.emailAddress user
                env.historyId hfind]
              rfl

/-- Witness for C2: a failing history fetch leaves the state untouched. -/
theorem cursor_advance_is_atomic_witness :
    (handleNotification ⟨fun _ _ => .error (), fun _ _ => .error ()⟩
        ⟨[⟨"u1", "a@x", some 100⟩], []⟩ ⟨"a@x", 105⟩).failed = true ∧
    (handleNotification ⟨fun _ _ => .error (), fun _ _ => .error ()⟩
        ⟨[⟨"u1", "a@x", some 100⟩], []⟩ ⟨"a@x", 105⟩).state
      = ⟨[⟨"u1", "a@x", some 100⟩], []⟩ :=
  ⟨by decide,
    (cursor_advance_is_atomic ⟨fun _ _ => .error (), fun _ _ => .error ()⟩
      ⟨[⟨"u1", "a@x", some 100⟩], []⟩ ⟨"a@x", 105⟩).1 (by decide)⟩

/-- The save phase writes exactly the documents whose id was found, by id
only: it equals a single pass overwriting every document whose id is in the
snapshot, whatever that document holds by write time. -/
theorem sweepSave_eq (ids : List String) (emails : List EmailDoc) :
    sweepSave ids emails
      = emails.map (fun e =>
          if ids.contains e.emailId then
            { e with status := "inbox", snoozeUntil := none }
          else e) := by
  induction ids generalizing emails with
  | nil => simp [sweepSave]
  | cons i ids ih =>
    have hstep : sweepSave (i :: ids) emails = sweepSave ids (sweepSaveOne i emails) := rfl
    rw [hstep, ih (sweepSaveOne i emails)]
    unfold sweepSaveOne
    rw [List.map_map]
    apply List.map_congr_left
    intro e _
    by_cases hid : e.emailId = i
    · simp [Function.comp, hid]
    · have hid' : (e.emailId == i) = false := by simpa using hid
      have hid'' : (i == e.emailId) = false := by
        simpa using fun h : i = e.emailId => hid h.symm
      simp [Function.comp, hid', hid'', hid]

/-- An uninterrupted sweeper run over a store with distinct document ids acts
as the per-document expiry on every document. -/
theorem sweepExpired_eq_map (now : Nat) (emails : List EmailDoc)
    (hnodup : (emails.map (·.emailId)).Nodup) :
    sweepExpired now emails = emails.map (expireOne now) := by
  unfold sweepExpired
  rw [sweepSave_eq]
  apply List.map_congr_left
  intro e he
  by_cases hexp : isExpired now e = true
  · have hmem : e.emailId ∈ sweepFind now emails := by
      unfold sweepFind
      exact List.mem_map_of_mem _ (List.mem_filter.mpr ⟨he, hexp⟩)
    simp [hmem, expireOne, hexp]
  · have hnmem : e.emailId ∉ sweepFind now emails := by
      intro hmem
      unfold sweepFind at hmem
      rcases List.mem_map.mp hmem with ⟨d, hd, hde⟩
      have hdmem : d ∈ emails := (List.mem_filter.mp hd).1
      have hdexp : isExpired now d = true := (List.mem_filter.mp hd).2
      have hdeq : d = e := List.inj_on_of_nodup_map hnodup hdmem he hde
      rw [hdeq] at hdexp
      exact hexp hdexp
    simp [hnmem, expireOne, hexp]

/-- C7 counterexample: the sweeper's per-item write is not an atomic
conditional update. Concrete trace: document "m1" is snoozed until 90; the
find phase at time 100 snapshots its id; a user-initiated status change (the
PATCH write) then moves it to "done"; the sweeper's pending save, filtered on
the id only, still overwrites it back to "inbox" — where the compare-and-set
update the claim describes would have left "done" untouched. -/
theorem sweep_save_not_conditional :
    sweepFind 100 [⟨"m1", "u1", "snoozed", some 90⟩] = ["m1"] ∧
    applyStatusUpdate ⟨"m1", "u1", "snoozed", some 90⟩ "done"
      = ⟨"m1", "u1", "done", none⟩ ∧
    sweepSaveOne "m1" [⟨"m1", "u1", "done", none⟩]
      = [⟨"m1", "u1", "inbox", none⟩] ∧
    casExpireOne 100 "m1" [⟨"m1", "u1", "done", none⟩]
      = [⟨"m1", "u1", "done", none⟩] ∧
    sweepSaveOne "m1" [⟨"m1", "u1", "done", none⟩]
      ≠ casExpireOne 100 "m1" [⟨"m1", "u1", "done", none⟩] := by
  decide

/-- C7 (amended): an uninterrupted run of the interval sweeper over a store
with distinct document ids turns every document that is snoozed with a
deadline at or before now into an inbox document with no deadline, touches
nothing else, and a second uninterrupted run (at the same or any later time)
changes nothing — but each per-item write is a find-then-save filtered only
on the document id, not an atomic conditional update (see the counterexample);
the auto-expire on the by-status read path is conditional but matches only
deadlines strictly before now, leaving a deadline equal to now untouched. -/
theorem snooze_sweep_sequential_spec (now now2 : Nat) (e : EmailDoc)
    (emails : List EmailDoc)
    (hnodup : (emails.map (·.emailId)).Nodup)
    (h : isExpired now e = true) :
    sweepExpired now emails = emails.map (expireOne now) ∧
    expireOne now e = { e with status := "inbox", snoozeUntil := none } ∧
    (∀ e', isExpired now e' = false → expireOne now e' = e') ∧
    expireOne now2 (expireOne now e) = expireOne now e ∧
    sweepExpired now (sweepExpired now emails) = sweepExpired now emails ∧
    autoExpireByStatus now "u1" [⟨"m1", "u1", "snoozed", some now⟩]
      = [⟨"m1", "u1", "snoozed", some now⟩] ∧
    isExpired now ⟨"m1", "u1", "snoozed", some now⟩ = true := by
  have hpt : ∀ x : EmailDoc, expireOne now (expireOne now x) = expireOne now x := by
    intro x
    by_cases hx : isExpired now x = true
    · rw [show expireOne now x = { x with status := "inbox", snoozeUntil := none } from
        by simp [expireOne, hx]]
      simp [expireOne, isExpired]
    · simp [expireOne, hx]
  have hb1 := sweepExpired_eq_map now emails hnodup
  refine ⟨hb1, by simp [expireOne, h], fun e' he' => by simp [expireOne, he'],
    ?_, ?_, ?_, ?_⟩
  · rw [show expireOne now e = { e with status := "inbox", snoozeUntil := none } from
      by simp [expireOne, h]]
    simp [expireOne, isExpired]
  · have hids : (sweepExpired now emails).map (·.emailId) = emails.map (·.emailId) := by
      rw [hb1, List.map_map]
      apply List.map_congr_left
      intro x _
      by_cases hx : isExpired now x = true <;> simp [expireOne, hx]
    have hnodup2 : ((sweepExpired now emails).map (·.emailId)).Nodup := by
      rw [hids]
      exact hnodup
    rw [sweepExpired_eq_map now (sweepExpired now emails) hnodup2, hb1, List.map_map]
    exact List.map_congr_left (fun x _ => hpt x)
  · simp [autoExpireByStatus]
  · simp [isExpired]

/-- Witness for C7 (amended): an email snoozed until 90 is restored by the
sweep at time 100 and a second sweep at time 100 changes nothing. -/
theorem snooze_sweep_sequential_spec_witness :
    sweepExpired 100 [⟨"m1", "u1", "snoozed", some 90⟩]
      = [⟨"m1", "u1", "snoozed", some 90⟩].map (expireOne 100) ∧
    sweepExpired 100 (sweepExpired 100 [⟨"m1", "u1", "snoozed", some 90⟩])
      = sweepExpired 100 [⟨"m1", "u1", "snoozed", some 90⟩] :=
  ⟨(snooze_sweep_sequential_spec 100 100 ⟨"m1", "u1", "snoozed", some 90⟩
      [⟨"m1", "u1", "snoozed", some 90⟩] (by decide) (by decide)).1,
    (snooze_sweep_sequential_spec 100 100 ⟨"m1", "u1", "snoozed", some 90⟩
      [⟨"m1", "u1", "snoozed", some 90⟩] (by decide) (by decide)).2.2.2.2.1⟩

/-- C6 counterexample: with a provider whose history fetch rejects, a
well-formed queue message whose processing fails is still acknowledged
(`handleNotification` catches its own errors), contradicting the claim that
such a message is left unacknowledged. -/
theorem ack_despite_processing_failure :
    (onQueueMessage ⟨fun _ _ => .error (), fun _ _ => .error ()⟩
        ⟨[⟨"u1", "a@x", some 100⟩], []⟩ (.wellFormed ⟨"a@x", 105⟩)).acked = true ∧
    (onQueueMessage ⟨fun _ _ => .error (), fun _ _ => .error ()⟩
        ⟨[⟨"u1", "a@x", some 100⟩], []⟩ (.wellFormed ⟨"a@x", 105⟩)).processingFailed
      = true := by
  decide

/-- C6 (amended): a message whose payload fails to parse is logged and left
unacknowledged (no ack, no nack — redelivery after the deadline), while every
message whose envelope parses is acknowledged, even when the sync pass caught
a processing error. -/
theorem queue_ack_policy (prov : Provider) (s : ServerState) :
    onQueueMessage prov s .malformed = ⟨s, false, false⟩ ∧
    (∀ env, (onQueueMessage prov s (.wellFormed env)).acked = true) := by
  exact ⟨rfl, fun env => rfl⟩

/-- When every message fetch succeeds, the pass's inner loop parses exactly
the collected ids, in order, with the `'INBOX'` hint. -/
theorem fetchAll_ok (prov : Provider) (uid : String)
    (fetch : String → GmailMessage) :
    ∀ ids : List String,
      (∀ m ∈ ids, prov.getMessage uid m = .ok (fetch m)) →
      fetchAll prov uid ids
        = (ids.map (fun m => parseGmailMessage (fetch m) uid "INBOX"), false) := by
  intro ids h
  induction ids with
  | nil => rfl
  | cons x xs ih =>
    have hx : prov.getMessage uid x = .ok (fetch x) := h x (by simp)
    have ih' := ih (fun m hm => h m (by simp [hm]))
    simp [fetchAll, hx, ih']

/-- C1 counterexample: the sync pass persists nothing. With a provider whose
history range holds one added message `"m1"` and whose message fetch
succeeds, processing the range (twice — the second pass is dropped by the
cursor guard) emits the parsed email but leaves zero persisted Email items
for `"m1"`, not the one item the claim requires. -/
theorem sync_pass_no_persisted_item :
    ((handleNotification
        ⟨fun _ _ => .ok [⟨some [⟨some "m1"⟩]⟩],
          fun _ _ => .ok ⟨"m1", ["INBOX"], [], "hello"⟩⟩
        (handleNotification
          ⟨fun _ _ => .ok [⟨some [⟨some "m1"⟩]⟩],
            fun _ _ => .ok ⟨"m1", ["INBOX"], [], "hello"⟩⟩
          ⟨[⟨"u1", "a@x", some 100⟩], []⟩ ⟨"a@x", 105⟩).state
        ⟨"a@x", 105⟩).state.emails.filter (fun e => e.emailId == "m1")).length ≠ 1 ∧
    (handleNotification
        ⟨fun _ _ => .ok [⟨some [⟨some "m1"⟩]⟩],
          fun _ _ => .ok ⟨"m1", ["INBOX"], [], "hello"⟩⟩
        ⟨[⟨"u1", "a@x", some 100⟩], []⟩ ⟨"a@x", 105⟩).emitted.length = 1 := by
  decide

/-- C1 (amended): for every "message added" record in a fresh range the pass
fetches the full message, converts it with `parseGmailMessage` under the
fixed `'INBOX'` hint, and emits it to the user's connections — but it checks
no existing item, consults no workflow rule, and persists nothing: the
persisted Email store is unchanged by every sync pass, duplicate suppression
coming only from the cursor guard. -/
theorem sync_pass_emits_without_persisting (prov : Provider) (s : ServerState)
    (env : Envelope) :
    (handleNotification prov s env).state.emails = s.emails ∧
    (∀ u latest history (fetch : String → GmailMessage),
      findUser s.users env.emailAddress = some u →
      u.latestHistoryId = some latest →
      latest < env.historyId →
      prov.getHistory u.userId latest = .ok history →
      (∀ m ∈ collectIds history, prov.getMessage u.userId m = .ok (fetch m)) →
      (handleNotification prov s env).emitted
        = (collectIds history).map
            (fun m => (u.userId, "email:new",
              parseGmailMessage (fetch m) u.userId "INBOX"))) := by
  constructor
  · cases hfind : findUser s.users env.emailAddress with
    | none => simp [handleNotification, hfind]
    | some user =>
      cases hcur : user.latestHistoryId with
      | none => simp [handleNotification, hfind, hcur]
      | some latest =>
        by_cases hle : env.historyId ≤ latest
        · simp [handleNotification, hfind, hcur, hle]
        · cases hh : prov.getHistory user.userId latest with
          | error e => simp [handleNotification, hfind, hcur, hle, hh]
          | ok history =>
            cases hf : fetchAll prov user.userId (collectIds history) with
            | mk parsed failed =>
              cases failed with
              | true => simp [handleNotification, hfind, hcur, hle, hh, hf]
              | false => simp [handleNotification, hfind, hcur, hle, hh, hf]
  · intro u latest history fetch hu hl hlt hh hmsg
    have hle : ¬ env.historyId ≤ latest := by omega
    have hfa := fetchAll_ok prov u.userId fetch (collectIds history) hmsg
    simp [handleNotification, hu, hl, hle, hh, hfa]

/-- Witness for C1 (amended): one added message, all fetches succeed → the
pass emits exactly the parsed message and persists nothing. -/
theorem sync_pass_emits_without_persisting_witness :
    (handleNotification
        ⟨fun _ _ => .ok [⟨some [⟨some "m7"⟩]⟩],
          fun _ _ => .ok ⟨"m7", ["UNREAD"], [⟨"Subject", "hi"⟩], "body"⟩⟩
        ⟨[⟨"u1", "a@x", some 100⟩], []⟩ ⟨"a@x", 105⟩).state.emails = [] ∧
    (handleNotification
        ⟨fun _ _ => .ok [⟨some [⟨some "m7"⟩]⟩],
          fun _ _ => .ok ⟨"m7", ["UNREAD"], [⟨"Subject", "hi"⟩], "body"⟩⟩
        ⟨[⟨"u1", "a@x", some 100⟩], []⟩ ⟨"a@x", 105⟩).emitted
      = (collectIds [⟨some [⟨some "m7"⟩]⟩]).map
          (fun _ => ("u1", "email:new",
            parseGmailMessage ⟨"m7", ["UNREAD"], [⟨"Subject", "hi"⟩], "body"⟩
              "u1" "INBOX")) :=
  ⟨(sync_pass_emits_without_persisting
      ⟨fun _ _ => .ok [⟨some [⟨some "m7"⟩]⟩],
        fun _ _ => .ok ⟨"m7", ["UNREAD"], [⟨"Subject", "hi"⟩], "body"⟩⟩
      ⟨[⟨"u1", "a@x", some 100⟩], []⟩ ⟨"a@x", 105⟩).1,
    (sync_pass_emits_without_persisting
      ⟨fun _ _ => .ok [⟨some [⟨some "m7"⟩]⟩],
        fun _ _ => .ok ⟨"m7", ["UNREAD"], [⟨"Subject", "hi"⟩], "body"⟩⟩
      ⟨[⟨"u1", "a@x", some 100⟩], []⟩ ⟨"a@x", 105⟩).2
      ⟨"u1", "a@x", some 100⟩ 100 [⟨some [⟨some "m7"⟩]⟩]
      (fun _ => ⟨"m7", ["UNREAD"], [⟨"Subject", "hi"⟩], "body"⟩)
      (by decide) (by decide) (by decide) rfl
      (fun m hm => by
        have hm' : m = "m7" := by simpa [collectIds] using hm
        subst hm'
        rfl)⟩

/-- C4 counterexample: a user whose cursor reads 100 gets it overwritten to
200 by `start` when the watch registration responds with historyId 200 — the
stored cursor is not left unchanged. -/
theorem start_overwrites_existing_cursor :
    cursorOf (start (.ok ⟨some 200⟩) ⟨[⟨"u1", "a@x", some 100⟩], []⟩ "u1") "a@x"
      = some 200 ∧ (some 200 : Option Nat) ≠ some 100 := by
  decide

/-- C4 (amended): `start(userId)` stores the registration response's
historyId as the user's cursor whenever the response carries one — also when
the user already had a stored cursor, which is overwritten; the stored state
is left unchanged only when the user is unknown, the watch call fails, or the
response has no historyId. -/
theorem start_stores_response_cursor (watchCall : Except Unit WatchResponse)
    (s : ServerState) (userId : String) :
    (∀ resp h, (s.users.find? (fun u => u.userId == userId)).isSome = true →
      watchCall = .ok resp → resp.historyId = some h →
      start watchCall s userId = ⟨setUserCursor s.users userId h, s.emails⟩) ∧
    ((s.users.find? (fun u => u.userId == userId) = none ∨
      watchCall = .error () ∨
      (∃ resp, watchCall = .ok resp ∧ resp.historyId = none)) →
      start watchCall s userId = s) := by
  constructor
  · intro resp h hfound hok hh
    cases hfind : s.users.find? (fun u => u.userId == userId) with
    | none => rw [hfind] at hfound; simp at hfound
    | some u => subst hok; simp [start, hfind, hh]
  · intro hcase
    rcases hcase with hnone | herr | ⟨resp, hok, hh⟩
    · simp [start, hnone]
    · subst herr
      cases hfind : s.users.find? (fun u => u.userId == userId) with
      | none => simp [start, hfind]
      | some u => simp [start, hfind]
    · subst hok
      cases hfind : s.users.find? (fun u => u.userId == userId) with
      | none => simp [start, hfind]
      | some u => simp [start, hfind, hh]

/-- Witness for C4 (amended): the overwrite branch at a concrete state. -/
theorem start_stores_response_cursor_witness :
    start (.ok ⟨some 200⟩) ⟨[⟨"u1", "a@x", some 100⟩], []⟩ "u1"
      = ⟨setUserCursor [⟨"u1", "a@x", some 100⟩] "u1" 200, []⟩ :=
  (start_stores_response_cursor (.ok ⟨some 200⟩)
      ⟨[⟨"u1", "a@x", some 100⟩], []⟩ "u1").1
    ⟨some 200⟩ 200 (by decide) rfl rfl

/-- Membership in a stable ordered insertion. -/
theorem mem_insertCol (c a : KanbanColumn) (l : List KanbanColumn) :
    a ∈ insertCol c l ↔ a = c ∨ a ∈ l := by
  induction l with
  | nil => simp [insertCol]
  | cons d ds ih =>
    by_cases hd : d.order < c.order
    · simp only [insertCol, if_pos hd, List.mem_cons, ih]
      tauto
    · simp only [insertCol, if_neg hd, List.mem_cons]

/-- Stable ordered insertion preserves sortedness by `order`. -/
theorem pairwise_insertCol (c : KanbanColumn) (l : List KanbanColumn)
    (h : l.Pairwise (fun a b => a.order ≤ b.order)) :
    (insertCol c l).Pairwise (fun a b => a.order ≤ b.order) := by
  induction l with
  | nil => simp [insertCol]
  | cons d ds ih =>
    rcases List.pairwise_cons.mp h with ⟨hd, hds⟩
    by_cases hlt : d.order < c.order
    · simp only [insertCol, if_pos hlt]
      refine List.pairwise_cons.mpr ⟨?_, ih hds⟩
      intro x hx
      rcases (mem_insertCol c x ds).mp hx with hx | hx
      · subst hx; omega
      · exact hd x hx
    · simp only [insertCol, if_neg hlt]
      refine List.pairwise_cons.mpr ⟨?_, h⟩
      intro x hx
      rcases List.mem_cons.mp hx with hx | hx
      · subst hx; omega
      · have := hd x hx; omega

/-- Membership is invariant under `sortColumns`. -/
theorem mem_sortColumns (a : KanbanColumn) (l : List KanbanColumn) :
    a ∈ sortColumns l ↔ a ∈ l := by
  induction l with
  | nil => simp [sortColumns]
  | cons c cs ih =>
    simp [sortColumns, mem_insertCol, ih]

/-- The result of `sortColumns` is sorted by ascending `order`. -/
theorem sorted_sortColumns (l : List KanbanColumn) :
    (sortColumns l).Pairwise (fun a b => a.order ≤ b.order) := by
  induction l with
  | nil => simp [sortColumns]
  | cons c cs ih => exact pairwise_insertCol c (sortColumns cs) ih

/-- In a list sorted by `order`, `find?` returns a hit of minimal `order`. -/
theorem find?_min_of_sorted (p : KanbanColumn → Bool) (l : List KanbanColumn)
    (h : l.Pairwise (fun a b => a.order ≤ b.order)) (c : KanbanColumn)
    (hf : l.find? p = some c) :
    ∀ d ∈ l, p d = true → c.order ≤ d.order := by
  induction l with
  | nil => simp at hf
  | cons x xs ih =>
    rcases List.pairwise_cons.mp h with ⟨hx, hxs⟩
    intro d hd hp
    cases hpx : p x with
    | true =>
      have hc : c = x := by
        rw [List.find?_cons_of_pos _ hpx] at hf
        exact (Option.some.inj hf).symm
      subst hc
      rcases List.mem_cons.mp hd with hd | hd
      · subst hd; omega
      · exact hx d hd
    | false =>
      rw [List.find?_cons_of_neg _ (by simp [hpx])] at hf
      rcases List.mem_cons.mp hd with hd | hd
      · subst hd; rw [hpx] at hp; exact absurd hp (by simp)
      · exact ih hxs hf d hd hp

/-- C5 counterexample: with a rule set holding a labelless default rule
(status "done") after an "inbox" rule, and a label set matching no rule, the
mapper returns the raw mailbox hint ("SPAM"), not the default rule's
"done" — the labelless default-rule fallback the claim describes does not
exist in the code. -/
theorem mapper_skips_default_rule :
    getStatusFromGmailLabels
        (some [⟨"c1", "inbox", some "INBOX", 0⟩, ⟨"c2", "done", none, 1⟩])
        ["SPAM"] "SPAM" = "SPAM" ∧ ("SPAM" : String) ≠ "done" := by
  decide

/-- C5 (amended): the mapped status is the `status` of the rule of least
`orderIndex` whose `providerLabel` occurs in the label set; when no labelled
rule matches, the mapper falls back directly to the raw mailbox hint —
labelless (default) rules are never selected. In particular, for rules
`[INBOX order 0, STARRED order 1]` and labels containing both, order 0 wins. -/
theorem mapper_first_match_or_mailbox_hint (config : Option (List KanbanColumn))
    (gmailLabels : List String) (mailboxId : String) :
    ((∀ c ∈ config.getD defaultColumns, colMatches gmailLabels c = false) →
      getStatusFromGmailLabels config gmailLabels mailboxId = mailboxId) ∧
    (∀ c0 ∈ config.getD defaultColumns, colMatches gmailLabels c0 = true →
      ∃ c, c ∈ config.getD defaultColumns ∧ colMatches gmailLabels c = true ∧
        getStatusFromGmailLabels config gmailLabels mailboxId = c.status ∧
        ∀ d ∈ config.getD defaultColumns, colMatches gmailLabels d = true →
          c.order ≤ d.order) ∧
    getStatusFromGmailLabels
        (some [⟨"c1", "inbox", some "INBOX", 0⟩, ⟨"c2", "todo", some "STARRED", 1⟩])
        ["STARRED", "INBOX"] "INBOX" = "inbox" := by
  refine ⟨?_, ?_, by decide⟩
  · intro hnone
    have hfe : (sortColumns (config.getD defaultColumns)).find?
        (colMatches gmailLabels) = none := by
      rw [List.find?_eq_none]
      intro x hx
      have := hnone x ((mem_sortColumns x _).mp hx)
      simp [this]
    simp [getStatusFromGmailLabels, hfe]
  · intro c0 hc0 hm0
    cases hfe : (sortColumns (config.getD defaultColumns)).find?
        (colMatches gmailLabels) with
    | none =>
      rw [List.find?_eq_none] at hfe
      exact absurd hm0 (by simpa using hfe c0 ((mem_sortColumns c0 _).mpr hc0))
    | some c =>
      refine ⟨c, (mem_sortColumns c _).mp (List.mem_of_find?_eq_some hfe),
        List.find?_some hfe, ?_, ?_⟩
      · simp [getStatusFromGmailLabels, hfe]
      · intro d hd hmd
        exact find?_min_of_sorted (colMatches gmailLabels) _
          (sorted_sortColumns _) c hfe d ((mem_sortColumns d _).mpr hd) hmd

/-- Witness for C5 (amended): no rule matches → raw mailbox hint. -/
theorem mapper_first_match_or_mailbox_hint_witness :
    getStatusFromGmailLabels (some [⟨"c1", "inbox", some "INBOX", 0⟩])
      ["SPAM"] "ARCHIVE" = "ARCHIVE" :=
  (mapper_first_match_or_mailbox_hint (some [⟨"c1", "inbox", some "INBOX", 0⟩])
    ["SPAM"] "ARCHIVE").1 (by decide)

/-- A registry lookup hit is a registry entry for that user. -/
theorem lookupReg_mem (reg : Registry) (u : String) (l : List String)
    (h : lookupReg reg u = some l) : (u, l) ∈ reg := by
  unfold lookupReg at h
  cases hf : reg.find? (fun p => p.1 == u) with
  | none => rw [hf] at h; simp at h
  | some pr =>
    rw [hf] at h
    have hmem := List.mem_of_find?_eq_some hf
    have hkey : pr.1 = u := by
      have := List.find?_some hf
      simpa using this
    have hl : pr.2 = l := by simpa using h
    have : pr = (u, l) := by
      cases pr
      simp only at hkey hl
      rw [hkey, hl]
    rwa [this] at hmem

/-- Socket lists of distinct users in a well-formed registry are disjoint. -/
theorem wfReg_disjoint (reg : Registry) (hwf : WFReg reg) :
    ∀ p q : String × List String, p ∈ reg → q ∈ reg → p.1 ≠ q.1 →
      ∀ sid ∈ p.2, sid ∉ q.2 := by
  induction reg with
  | nil => intro p q hp; simp at hp
  | cons x rest ih =>
    rcases List.pairwise_cons.mp hwf with ⟨hx, hrest⟩
    intro p q hp hq hne sid hsid
    rcases List.mem_cons.mp hp with hpx | hpr
    · rcases List.mem_cons.mp hq with hqx | hqr
      · rw [hpx, hqx] at hne; exact absurd rfl hne
      · rw [hpx] at hsid
        exact (hx q hqr).2 sid hsid
    · rcases List.mem_cons.mp hq with hqx | hqr
      · rw [hqx]
        intro hcon
        exact (hx p hpr).2 sid hcon hsid
      · exact ih hrest p q hpr hqr hne sid hsid

/-- Removal only removes: the result is contained in the input. -/
theorem removeFirst_subset (l : List String) (sid : String) :
    ∀ x ∈ removeFirst l sid, x ∈ l := by
  induction l with
  | nil => simp [removeFirst]
  | cons y ys ih =>
    intro x hx
    by_cases hy : y == sid
    · simp only [removeFirst, if_pos hy] at hx
      exact List.mem_cons_of_mem y hx
    · simp only [removeFirst, if_neg hy] at hx
      rcases List.mem_cons.mp hx with hx | hx
      · subst hx; exact List.mem_cons_self x ys
      · exact List.mem_cons_of_mem y (ih x hx)

/-- Pushing a fresh socket id onto one user's list preserves the pairwise
disjointness of a registry none of whose lists holds that id. -/
theorem wfReg_updateEntry_push (r : Registry) (u sid : String)
    (habs : ∀ p : String × List String, p ∈ r → sid ∉ p.2)
    (hr : WFReg r) : WFReg (updateEntry r u (fun l => l ++ [sid])) := by
  unfold updateEntry
  refine List.pairwise_map.mpr (List.Pairwise.imp_of_mem ?_ hr)
  intro p q hp hq hpq
  obtain ⟨hk, hd⟩ := hpq
  dsimp only
  by_cases hpu : (p.1 == u) = true <;> by_cases hqu : (q.1 == u) = true
  · exact absurd ((eq_of_beq hpu).trans (eq_of_beq hqu).symm) hk
  · rw [if_pos hpu, if_neg hqu]
    refine ⟨hk, ?_⟩
    intro s hs
    rcases List.mem_append.mp hs with hs | hs
    · exact hd s hs
    · have hssid : s = sid := by simpa using hs
      rw [hssid]
      exact habs q hq
  · rw [if_neg hpu, if_pos hqu]
    refine ⟨hk, ?_⟩
    intro s hs hcon
    rcases List.mem_append.mp hcon with hcon | hcon
    · exact hd s hs hcon
    · have hssid : s = sid := by simpa using hcon
      rw [hssid] at hs
      exact habs p hp hs
  · rw [if_neg hpu, if_neg hqu]
    exact ⟨hk, hd⟩

/-- The `connection` handler preserves registry well-formedness when the new
socket id is fresh. -/
theorem wfReg_connect (reg : Registry) (u sid : String) (hwf : WFReg reg)
    (habs : socketAbsent reg sid = true) :
    WFReg (connectSock reg u sid) := by
  have habs' : ∀ p : String × List String, p ∈ reg → sid ∉ p.2 := by
    intro p hp
    have := (List.all_eq_true.mp habs) p hp
    simpa using this
  unfold connectSock
  by_cases hlk : (lookupReg reg u).isSome = true
  · rw [if_pos hlk]
    exact wfReg_updateEntry_push reg u sid habs' hwf
  · rw [if_neg hlk]
    have hnone : reg.find? (fun p => p.1 == u) = none := by
      unfold lookupReg at hlk
      cases hf : reg.find? (fun p => p.1 == u) with
      | none => rfl
      | some pr => rw [hf] at hlk; simp at hlk
    have hkeys : ∀ p : String × List String, p ∈ reg → ¬ p.1 = u := by
      intro p hp
      have := List.find?_eq_none.mp hnone p hp
      simpa using this
    refine wfReg_updateEntry_push (reg ++ [(u, [])]) u sid ?_ ?_
    · intro p hp
      rcases List.mem_append.mp hp with hp | hp
      · exact habs' p hp
      · have hp' : p = (u, []) := by simpa using hp
        rw [hp']
        simp
    · refine List.pairwise_append.mpr ⟨hwf, List.pairwise_singleton _ _, ?_⟩
      intro p hp q hq
      have hq' : q = (u, []) := by simpa using hq
      rw [hq']
      exact ⟨hkeys p hp, by simp⟩

/-- The `disconnect` handler preserves registry well-formedness. -/
theorem wfReg_disconnect (reg : Registry) (u sid : String) (hwf : WFReg reg) :
    WFReg (disconnectSock reg u sid) := by
  unfold disconnectSock
  by_cases hempty : (removeFirst ((lookupReg reg u).getD []) sid).isEmpty = true
  · rw [if_pos hempty]
    exact List.Pairwise.sublist (List.filter_sublist reg) hwf
  · rw [if_neg hempty]
    unfold updateEntry
    refine List.pairwise_map.mpr (List.Pairwise.imp ?_ hwf)
    intro p q hpq
    obtain ⟨hk, hd⟩ := hpq
    dsimp only
    have h2 : ∀ r : String × List String, ∀ s : String,
        s ∈ (if (r.1 == u) = true then (r.1, removeFirst r.2 sid) else r).2 →
          s ∈ r.2 := by
      intro r s hs
      by_cases h : (r.1 == u) = true
      · rw [if_pos h] at hs
        exact removeFirst_subset r.2 sid s hs
      · rwa [if_neg h] at hs
    constructor
    · by_cases hpu : (p.1 == u) = true <;> by_cases hqu : (q.1 == u) = true <;>
        simp only [if_pos, if_neg, hpu, hqu, if_true, if_false] <;>
        simpa using hk
    · intro s hs hcon
      exact hd s (h2 p s hs) (h2 q s hcon)

/-- Replaying a fresh connection trace from a well-formed registry keeps it
well-formed. -/
theorem wfReg_applyEvents (trace : List ConnEvent) :
    ∀ reg : Registry, WFReg reg → freshTrace reg trace = true →
      WFReg (applyEvents reg trace) := by
  induction trace with
  | nil => intro reg hwf _; exact hwf
  | cons ev rest ih =>
    intro reg hwf hfresh
    unfold freshTrace at hfresh
    rw [Bool.and_eq_true] at hfresh
    have hstep : WFReg (applyEvent reg ev) := by
      cases ev with
      | connect u sid => exact wfReg_connect reg u sid hwf hfresh.1
      | disconnect u sid => exact wfReg_disconnect reg u sid hwf
    exact ih (applyEvent reg ev) hstep hfresh.2

/-- C9: after any sequence of connect/disconnect events with fresh socket
ids, a delivery for user `a` sends the event to exactly the socket handles
registered for `a` (none are skipped, no other handle receives it); a socket
registered under a different user `b` never receives it, and a user with no
registry entry gets the event dropped without error. -/
theorem fanout_isolation (trace : List ConnEvent) (a b event : String)
    (payload : Email) (hfresh : freshTrace [] trace = true) (hab : a ≠ b) :
    (emitToUser (applyEvents [] trace) a event payload
      = ((lookupReg (applyEvents [] trace) a).getD []).map
          (fun sid => (sid, event, payload))) ∧
    (∀ sid sb, lookupReg (applyEvents [] trace) b = some sb → sid ∈ sb →
      ∀ x ∈ emitToUser (applyEvents [] trace) a event payload, x.1 ≠ sid) ∧
    (lookupReg (applyEvents [] trace) a = none →
      emitToUser (applyEvents [] trace) a event payload = []) := by
  have hwf : WFReg (applyEvents [] trace) :=
    wfReg_applyEvents trace [] List.Pairwise.nil hfresh
  refine ⟨?_, ?_, ?_⟩
  · cases hla : lookupReg (applyEvents [] trace) a with
    | none => simp [emitToUser, hla]
    | some la => simp [emitToUser, hla]
  · intro sid sb hlb hsid x hx hxeq
    cases hla : lookupReg (applyEvents [] trace) a with
    | none => simp [emitToUser, hla] at hx
    | some la =>
      simp only [emitToUser, hla] at hx
      rcases List.mem_map.mp hx with ⟨s, hs, hxval⟩
      have hx1 : x.1 = s := by rw [← hxval]
      have hssid : s = sid := by rw [← hx1, hxeq]
      rw [hssid] at hs
      have hma : (a, la) ∈ applyEvents [] trace := lookupReg_mem _ _ _ hla
      have hmb : (b, sb) ∈ applyEvents [] trace := lookupReg_mem _ _ _ hlb
      exact absurd hs
        (wfReg_disjoint _ hwf (b, sb) (a, la) hmb hma (by simpa using hab.symm) sid hsid)
  · intro hla
    simp [emitToUser, hla]

/-- Witness for C9: two users with one connection each; delivery for "A" hits
exactly the handle registered for "A". -/
theorem fanout_isolation_witness :
    freshTrace [] [ConnEvent.connect "A" "s1", ConnEvent.connect "B" "s2"] = true ∧
    emitToUser (applyEvents [] [ConnEvent.connect "A" "s1", ConnEvent.connect "B" "s2"])
        "A" "email:new" ⟨"m1", "uA", "INBOX", "hi", "b", true, false, "INBOX", none⟩
      = ((lookupReg (applyEvents []
            [ConnEvent.connect "A" "s1", ConnEvent.connect "B" "s2"]) "A").getD []).map
          (fun sid => (sid, "email:new",
            ⟨"m1", "uA", "INBOX", "hi", "b", true, false, "INBOX", none⟩)) :=
  ⟨by decide,
    (fanout_isolation [ConnEvent.connect "A" "s1", ConnEvent.connect "B" "s2"]
      "A" "B" "email:new" ⟨"m1", "uA", "INBOX", "hi", "b", true, false, "INBOX", none⟩
      (by decide) (by decide)).1⟩

/-- Witness for C10: moving a snoozed email to "done" clears the deadline. -/
theorem patch_status_clears_snooze_witness :
    patchEmailStatus defaultColumns ⟨"m1", "u1", "snoozed", some 99⟩ "done"
      = some ⟨"m1", "u1", "done", none⟩ ∧
    ("done" : String) ≠ "snoozed" ∧
    (⟨"m1", "u1", "done", none⟩ : EmailDoc).snoozeUntil = none := by
  refine ⟨by decide, by decide, ?_⟩
  exact (patch_status_clears_snooze defaultColumns ⟨"m1", "u1", "snoozed", some 99⟩
    "done" ⟨"m1", "u1", "done", none⟩ (by decide)).2.1 (by decide)

end EmailClient
